/-
Verification of the RedTeamAI agent core (redteamai/ai and redteamai/tools)
against its natural-language specification.

Shallow embedding: the Python classes `MessageHistory`, `RedTeamAgent`,
`ToolRegistry` and the SSE streaming loops of `GroqBackend.stream_chat` /
`OpenAICompatBackend.stream_chat` are translated into executable Lean
definitions; theorems below settle the spec claims against them.
-/
import Mathlib

set_option linter.unusedVariables false

namespace RedTeamAI

/-! ## Message history (redteamai/ai/message_history.py)

A Python message is a dict with a `role`, a `content` value (usually a
string, possibly a list of blocks, possibly something else), and optional
tool bookkeeping fields.  `_estimate_tokens` reads `msg.get("content", "")`
and dispatches on `isinstance(content, str)` / `isinstance(content, list)`;
we mirror that with an inductive content type. -/

/-- A content block inside a list-valued `content`.  `_estimate_tokens`
counts `len(str(block)) // 4` for dict blocks and skips non-dict blocks;
we carry the serialized length of a dict block. -/
inductive PyBlock where
  | dict (serializedLen : Nat)
  | nonDict
deriving DecidableEq, Repr

/-- The `content` value of a history message. -/
inductive PyContent where
  | ofStr (s : String)
  | ofList (blocks : List PyBlock)
  | other
deriving DecidableEq, Repr

/-- The dict stored in an assistant message's `tool_calls` list
(`{"id": ..., "type": "function", "function": {"name": ..., "arguments": json.dumps(...)}}`). -/
structure ToolCallDict where
  id : String
  name : String
  argumentsJson : String
deriving DecidableEq, Repr

/-- One history message dict. -/
structure Message where
  role : String
  content : PyContent
  tool_call_id : Option String := none
  name : Option String := none
  tool_calls : Option (List ToolCallDict) := none
deriving DecidableEq, Repr

/-- Python string slicing `s[:n]` (by code point, as Lean chars). -/
def pySlice (s : String) (n : Nat) : String :=
  String.mk (s.data.take n)

structure MessageHistory where
  max_tokens : Nat := 8000
  system_prompt : String := ""
  messages : List Message := []
deriving DecidableEq, Repr

namespace MessageHistory

def add_user (h : MessageHistory) (content : String) : MessageHistory :=
  { h with messages := h.messages ++ [{ role := "user", content := .ofStr content }] }

def add_assistant (h : MessageHistory) (content : String)
    (tool_calls : Option (List ToolCallDict) := none) : MessageHistory :=
  let tcField : Option (List ToolCallDict) :=
    match tool_calls with
    | some tcs => if tcs = [] then none else some tcs  -- `if tool_calls:` is false for []
    | none => none
  { h with messages := h.messages ++
      [{ role := "assistant", content := .ofStr content, tool_calls := tcField }] }

def add_tool_result (h : MessageHistory) (tool_call_id tool_name content : String) :
    MessageHistory :=
  { h with messages := h.messages ++
      [{ role := "tool", content := .ofStr (pySlice content 4000),
         tool_call_id := some tool_call_id, name := some tool_name }] }

def get_messages (h : MessageHistory) : List Message :=
  (if h.system_prompt ≠ "" then
    [{ role := "system", content := PyContent.ofStr h.system_prompt }]
  else []) ++ h.messages

/-- Token contribution of one message's content in `_estimate_tokens`. -/
def contentTokens : PyContent → Nat
  | .ofStr s => s.length / 4
  | .ofList blocks =>
      (blocks.map (fun b => match b with
        | .dict n => n / 4
        | .nonDict => 0)).sum
  | .other => 0

/-- `MessageHistory._estimate_tokens`: system prompt plus per-message content,
at 4 characters per token (floor division). -/
def estimateTokens (h : MessageHistory) : Nat :=
  h.system_prompt.length / 4 + (h.messages.map (fun m => contentTokens m.content)).sum

/-- The body of the `prune` while-loop, with explicit fuel.  Each pass pops
one message and the loop requires more than 2 messages, so any fuel of at
least `messages.length - 2` makes this equal to the unbounded while-loop. -/
def pruneLoop : Nat → MessageHistory → MessageHistory
  | 0, h => h
  | fuel + 1, h =>
      if h.max_tokens < h.estimateTokens ∧ 2 < h.messages.length then
        pruneLoop fuel { h with messages := h.messages.tail }
      else h

/-- `MessageHistory.prune`: `while self._estimate_tokens() > self.max_tokens
and len(self.messages) > 2: self.messages.pop(0)`.  `messages.length` is
(more than) enough fuel for the loop to run to its exit condition. -/
def prune (h : MessageHistory) : MessageHistory :=
  pruneLoop h.messages.length h

def clear (h : MessageHistory) : MessageHistory :=
  { h with messages := [] }

end MessageHistory

/-! ## ReAct agent (redteamai/ai/agent.py)

The agent's effects on the outside world are (a) the `AgentEvent`s it
yields, (b) the history it mutates, and (c) the tool-executor invocations it
makes.  The model returns all three explicitly.  The environment is
modelled by: a backend giving, for each successive `stream_chat` call, the
items the stream yields (and an optional uncaught exception ending the
stream); an executor returning either a result string or a raised
exception (`Except`); and a confirmation gate giving, per call id, the
`confirmed` flag the GUI sets before firing `confirm_event`. -/

structure ToolCall where
  id : String
  name : String
  arguments : List (String × String)
deriving DecidableEq, Repr

/-- One chunk yielded by `backend.stream_chat`: a text token or a tool call. -/
inductive StreamItem where
  | text (s : String)
  | tool (tc : ToolCall)
deriving DecidableEq, Repr

/-- One full `stream_chat` call: the chunks it yields, then an optional
uncaught exception that ends the stream (and the run). -/
structure StreamResult where
  items : List StreamItem
  exc : Option String := none
deriving DecidableEq, Repr

inductive AgentEvent where
  | textChunk (text : String)
  | thinking (text : String)
  | toolCall (tool_name : String) (arguments : List (String × String)) (call_id : String)
  | toolResult (tool_name : String) (call_id : String) (output : String) (error : Bool)
  | confirmationRequired (tool_name : String) (command : String) (call_id : String)
  | agentDone (final_response : String) (iterations : Nat)
  | agentError (error : String)
deriving DecidableEq, Repr

def DANGEROUS_TOOLS : List String := ["metasploit_exec", "exploit_run", "ffuf", "gobuster"]

/-- Python `repr` of a (quote-free) string value, as used in
`_format_cmd_preview`'s `f"{k}={v!r}"`. -/
def pyRepr (v : String) : String := "'" ++ v ++ "'"

/-- `json.dumps(tc.arguments)` for a string-valued arguments dict. -/
def jsonDumps (args : List (String × String)) : String :=
  "\x7b" ++ String.intercalate ", "
    (args.map (fun kv => "\"" ++ kv.1 ++ "\": \"" ++ kv.2 ++ "\"")) ++ "\x7d"

/-- `RedTeamAgent._format_cmd_preview`. -/
def formatCmdPreview (tool_name : String) (args : List (String × String)) : String :=
  tool_name ++ "(" ++ String.intercalate " " (args.map (fun kv => kv.1 ++ "=" ++ pyRepr kv.2)) ++ ")"

/-- The assistant-message descriptor recorded for a received tool call. -/
def toolCallDictOf (tc : ToolCall) : ToolCallDict :=
  { id := tc.id, name := tc.name, argumentsJson := jsonDumps tc.arguments }

/-- `(tool_name, args) -> str`, raising modelled as `Except.error`. -/
abbrev ToolExecutor := String → List (String × String) → Except String String

/-- For each call id, the `confirmed` flag resolved by the GUI. -/
abbrev ConfirmGate := String → Bool

/-- A record of one executor invocation (to state non-invocation claims). -/
abbrev ExecutorCall := String × List (String × String)

/-- The `try: result = ... except Exception` block of the Act phase
(agent.py lines 156-169), given the events already emitted for this call. -/
def executeToolCall (executor : ToolExecutor) (hist : MessageHistory) (tc : ToolCall)
    (pre : List AgentEvent) : List AgentEvent × MessageHistory × List ExecutorCall :=
  match executor tc.name tc.arguments with
  | .error e =>
      let output := "Tool error: " ++ e
      (pre ++ [AgentEvent.toolResult tc.name tc.id output true],
       hist.add_tool_result tc.id tc.name output, [(tc.name, tc.arguments)])
  | .ok res =>
      (pre ++ [AgentEvent.toolResult tc.name tc.id res false],
       hist.add_tool_result tc.id tc.name res, [(tc.name, tc.arguments)])

/-- The per-tool-call body of the Act phase (agent.py lines 137-169):
emit `ToolCallEvent`; gate dangerous tools behind confirmation; on decline
record and emit the cancelled result and skip execution; otherwise execute
via the executor, converting a raised exception into an error-tagged result. -/
def processToolCall (requireConfirm : Bool) (executor : ToolExecutor) (confirms : ConfirmGate)
    (hist : MessageHistory) (tc : ToolCall) :
    List AgentEvent × MessageHistory × List ExecutorCall :=
  let callEvt := AgentEvent.toolCall tc.name tc.arguments tc.id
  if requireConfirm ∧ tc.name ∈ DANGEROUS_TOOLS then
    let confirmEvt :=
      AgentEvent.confirmationRequired tc.name (formatCmdPreview tc.name tc.arguments) tc.id
    if confirms tc.id then
      executeToolCall executor hist tc [callEvt, confirmEvt]
    else
      ([callEvt, confirmEvt,
        AgentEvent.toolResult tc.name tc.id "User cancelled execution." true],
       hist.add_tool_result tc.id tc.name "User cancelled execution.", [])
  else
    executeToolCall executor hist tc [callEvt]

/-- `for tc in tool_calls_received:` — process the received tool calls in
order, threading the history. -/
def processToolCalls (requireConfirm : Bool) (executor : ToolExecutor) (confirms : ConfirmGate)
    (hist : MessageHistory) : List ToolCall → List AgentEvent × MessageHistory × List ExecutorCall
  | [] => ([], hist, [])
  | tc :: rest =>
      let r1 := processToolCall requireConfirm executor confirms hist tc
      let r2 := processToolCalls requireConfirm executor confirms r1.2.1 rest
      (r1.1 ++ r2.1, r2.2.1, r1.2.2 ++ r2.2.2)

/-- The text chunks of one stream, in order (each yields a `TextChunkEvent`). -/
def streamTexts (items : List StreamItem) : List String :=
  items.filterMap fun i => match i with | .text s => some s | .tool _ => none

/-- `tool_calls_received` after the stream ends. -/
def streamToolCalls (items : List StreamItem) : List ToolCall :=
  items.filterMap fun i => match i with | .tool tc => some tc | .text _ => none

/-- `accumulated_text` after the stream ends. -/
def accumulate (items : List StreamItem) : String := String.join (streamTexts items)

def textChunkEvents (items : List StreamItem) : List AgentEvent :=
  (streamTexts items).map AgentEvent.textChunk

/-- How the `while` loop of `run` ends: `break` with a final answer,
exhaustion of `max_iterations` (the `while`'s `else`), or an uncaught
exception. -/
inductive LoopOut where
  | finished (events : List AgentEvent) (hist : MessageHistory) (final : String) (iters : Nat)
  | exhausted (events : List AgentEvent) (hist : MessageHistory) (final : String) (iters : Nat)
  | errored (events : List AgentEvent) (hist : MessageHistory) (msg : String)
deriving DecidableEq, Repr

/-- The events yielded during the loop, in order. -/
def LoopOut.events : LoopOut → List AgentEvent
  | .finished evs _ _ _ => evs
  | .exhausted evs _ _ _ => evs
  | .errored evs _ _ => evs

/-- Whether the loop ended by an uncaught exception. -/
def LoopOut.isErrored : LoopOut → Bool
  | .errored _ _ _ => true
  | _ => false

/-- The `while iterations < max_iterations` loop of `RedTeamAgent.run`
(agent.py lines 99-174), with `remaining = max_iterations - iterations`
fuel and `it` the iterations completed so far.  `backend it` is the stream
of the `(it+1)`-st `stream_chat` call. -/
def agentLoop (requireConfirm : Bool) (backend : Nat → StreamResult) (executor : ToolExecutor)
    (confirms : ConfirmGate) : Nat → Nat → String → MessageHistory → LoopOut
  | 0, it, finalResp, hist => .exhausted [] hist finalResp it
  | remaining + 1, it, finalResp, hist =>
      let iterations := it + 1
      let stream := backend it
      let textEvts := textChunkEvents stream.items
      let accumulated := accumulate stream.items
      let toolCalls := streamToolCalls stream.items
      match stream.exc with
      | some e => .errored textEvts hist e
      | none =>
        if toolCalls = [] ∧ accumulated ≠ "" then
          -- response already complete: record assistant message and break
          .finished textEvts (hist.add_assistant accumulated) accumulated iterations
        else if toolCalls ≠ [] then
          let hist1 := hist.add_assistant accumulated (some (toolCalls.map toolCallDictOf))
          let acted := processToolCalls requireConfirm executor confirms hist1 toolCalls
          match agentLoop requireConfirm backend executor confirms remaining iterations
              finalResp acted.2.1 with
          | .finished evs h f i => .finished (textEvts ++ acted.1 ++ evs) h f i
          | .exhausted evs h f i => .exhausted (textEvts ++ acted.1 ++ evs) h f i
          | .errored evs h m => .errored (textEvts ++ acted.1 ++ evs) h m
        else
          -- no tool calls (and no text) — "we're done"
          .finished textEvts hist accumulated iterations

/-- The trailing note appended when the iteration cap is reached. -/
def maxIterMsg (n : Nat) : String :=
  "\n\n*[Agent reached max iterations (" ++ toString n ++ ")]*"

structure AgentConfig where
  max_iterations : Nat := 10
  require_confirm : Bool := true
deriving DecidableEq, Repr

/-- `RedTeamAgent.run`: add the user message, prune, run the ReAct loop;
on exhaustion emit the cap note as a `TextChunk` and append it to the final
response; terminate with `AgentDoneEvent` unless an uncaught exception
surfaced, in which case `AgentErrorEvent` is the last event. -/
def runAgent (cfg : AgentConfig) (backend : Nat → StreamResult) (executor : ToolExecutor)
    (confirms : ConfirmGate) (hist0 : MessageHistory) (userMessage : String) :
    List AgentEvent × MessageHistory :=
  let h1 := (hist0.add_user userMessage).prune
  match agentLoop cfg.require_confirm backend executor confirms cfg.max_iterations 0 "" h1 with
  | .finished evs h final iters => (evs ++ [AgentEvent.agentDone final iters], h)
  | .exhausted evs h finalResp iters =>
      let msg := maxIterMsg cfg.max_iterations
      (evs ++ [AgentEvent.textChunk msg, AgentEvent.agentDone (finalResp ++ msg) iters], h)
  | .errored evs h m => (evs ++ [AgentEvent.agentError m], h)

/-! ## SSE streaming backends (groq_backend.py, openai_compat_backend.py)

`stream_chat` of both backends iterates the response's lines: lines not
starting with `"data: "` are skipped, the `"[DONE]"` sentinel stops the
stream, lines whose payload fails `json.loads` are skipped, and otherwise
`delta = chunk["choices"][0].get("delta", {})` is read.  We embed the line
stream post-parsing: a line is either not a data line, or a data line whose
payload is the sentinel, malformed JSON, or a delta frame carrying an
optional `content` string and whatever `tool_calls` deltas the provider
sent. -/

/-- A tool-call delta as it appears inside a streamed frame. -/
structure RawStreamToolCall where
  id : String
  name : String
  argumentsJson : String
deriving DecidableEq, Repr

inductive SSEPayload where
  | done
  | malformed
  | frame (content : Option String) (tool_calls : List RawStreamToolCall)
deriving DecidableEq, Repr

inductive SSELine where
  | notData (raw : String)
  | data (payload : SSEPayload)
deriving DecidableEq, Repr

/-- `GroqBackend.stream_chat` line loop (groq_backend.py lines 77-90):
yields `delta.get("content") or ""` when non-empty; the `tool_calls` field
of a frame is never read, so no `ToolCall` is ever yielded. -/
def groqStreamChat : List SSELine → List StreamItem
  | [] => []
  | .notData _ :: rest => groqStreamChat rest
  | .data .done :: _ => []
  | .data .malformed :: rest => groqStreamChat rest
  | .data (.frame content _tcs) :: rest =>
      let token := content.getD ""
      (if token ≠ "" then [StreamItem.text token] else []) ++ groqStreamChat rest

/-- `OpenAICompatBackend.stream_chat` line loop (openai_compat_backend.py
lines 77-90); identical to the Groq loop. -/
def openaiCompatStreamChat : List SSELine → List StreamItem
  | [] => []
  | .notData _ :: rest => openaiCompatStreamChat rest
  | .data .done :: _ => []
  | .data .malformed :: rest => openaiCompatStreamChat rest
  | .data (.frame content _tcs) :: rest =>
      let token := content.getD ""
      (if token ≠ "" then [StreamItem.text token] else []) ++ openaiCompatStreamChat rest

/-- The tool-call deltas present in the stream's frames up to termination
(what a correct implementation would have to surface). -/
def sseFrameToolCalls : List SSELine → List RawStreamToolCall
  | [] => []
  | .notData _ :: rest => sseFrameToolCalls rest
  | .data .done :: _ => []
  | .data .malformed :: rest => sseFrameToolCalls rest
  | .data (.frame _ tcs) :: rest => tcs ++ sseFrameToolCalls rest

/-! ## Tool registry (redteamai/tools/registry.py, tools/base.py) -/

structure ToolResult where
  success : Bool
  output : String
  error : String := ""
deriving DecidableEq, Repr

/-- What `tool.execute(**kwargs)` does: return a `ToolResult` or raise. -/
inductive ExecOutcome where
  | raises (msg : String)
  | returns (r : ToolResult)

/-- A registered `BaseTool`, reduced to its name and execution behaviour. -/
structure RegisteredTool where
  name : String
  behavior : List (String × String) → ExecOutcome

/-- `ToolRegistry`: `_tools` and `_availability` dicts as assoc lists. -/
structure ToolRegistry where
  tools : List RegisteredTool
  availability : List (String × Bool × String)

namespace ToolRegistry

/-- `self._tools.get(name)`. -/
def getTool (reg : ToolRegistry) (name : String) : Option RegisteredTool :=
  reg.tools.find? (fun t => t.name == name)

def is_available (reg : ToolRegistry) (name : String) : Bool :=
  match reg.availability.find? (fun p => p.1 == name) with
  | none => false
  | some p => p.2.1

def get_hint (reg : ToolRegistry) (name : String) : String :=
  match reg.availability.find? (fun p => p.1 == name) with
  | none => "Tool not registered"
  | some p => p.2.2

/-- `ToolRegistry.execute`: unknown and unavailable tools, and raising
tools, become failed `ToolResult`s with empty output. -/
def execute (reg : ToolRegistry) (name : String) (kwargs : List (String × String)) :
    ToolResult :=
  match reg.getTool name with
  | none => { success := false, output := "", error := "Unknown tool: " ++ name }
  | some tool =>
      if ¬ reg.is_available name then
        { success := false, output := "",
          error := "Tool '" ++ name ++ "' not available. " ++ reg.get_hint name }
      else
        match tool.behavior kwargs with
        | .raises e => { success := false, output := "", error := e }
        | .returns r => r

/-- `ToolRegistry.execute_from_ai`: `if result.success or result.output:
return result.output or result.error` else the `"[Error] "`-prefixed error. -/
def execute_from_ai (reg : ToolRegistry) (tool_name : String)
    (arguments : List (String × String)) : String :=
  let result := reg.execute tool_name arguments
  if result.success ∨ result.output ≠ "" then
    (if result.output ≠ "" then result.output else result.error)
  else
    "[Error] " ++ result.error

end ToolRegistry

/-- Whether an event is `AgentErrorEvent` (the spec's `AgentFailed`). -/
def isAgentError : AgentEvent → Bool
  | .agentError _ => true
  | _ => false

/-- Whether an event is `AgentDoneEvent` (the spec's `AgentCompleted`). -/
def isAgentDone : AgentEvent → Bool
  | .agentDone _ _ => true
  | _ => false

/-! ## Concrete instances used by witnesses and counterexamples -/

/-- An SSE stream whose single delta frame carries one tool-call delta and
no content, then the `[DONE]` sentinel. -/
def streamWithToolCallDelta : List SSELine :=
  [.data (.frame none [{ id := "call_1", name := "nmap",
                         argumentsJson := "\x7b\"target\": \"10.0.0.1\"\x7d" }]),
   .data .done]

/-- A registry with one available tool that reports failure but still
carries partial output. -/
def failingOutputReg : ToolRegistry :=
  { tools := [{ name := "vuln_scan",
                behavior := fun _ =>
                  .returns { success := false, output := "partial results",
                             error := "timed out" } }],
    availability := [("vuln_scan", true, "")] }

/-- A two-message history already over budget: `prune` cannot touch it
(the loop requires `len(self.messages) > 2`). -/
def twoMsgOverBudget : MessageHistory :=
  { max_tokens := 0, system_prompt := "",
    messages := [{ role := "user", content := .ofStr "aaaa" },
                 { role := "user", content := .ofStr "bbbb" }] }

/-- A three-message history over budget, used to exercise the prune loop. -/
def threeMsgOverBudget : MessageHistory :=
  { max_tokens := 0, system_prompt := "",
    messages := [{ role := "user", content := .ofStr "aaaa" },
                 { role := "assistant", content := .ofStr "bbbb" },
                 { role := "user", content := .ofStr "cccc" }] }

/-- `pruneLoop` never changes the budget or the system prompt. -/
theorem pruneLoop_preserves (fuel : Nat) (h : MessageHistory) :
    (MessageHistory.pruneLoop fuel h).max_tokens = h.max_tokens ∧
    (MessageHistory.pruneLoop fuel h).system_prompt = h.system_prompt := by
  induction fuel generalizing h with
  | zero => exact ⟨rfl, rfl⟩
  | succ n ih =>
    rw [MessageHistory.pruneLoop]
    split
    · exact ih _
    · exact ⟨rfl, rfl⟩

/-- With fuel at least `messages.length - 2`, `pruneLoop` reaches the
while-loop's exit condition: estimate within budget or at most 2 messages. -/
theorem pruneLoop_post (fuel : Nat) (h : MessageHistory)
    (hfuel : h.messages.length ≤ fuel + 2) :
    (MessageHistory.pruneLoop fuel h).estimateTokens ≤ h.max_tokens ∨
    (MessageHistory.pruneLoop fuel h).messages.length ≤ 2 := by
  induction fuel generalizing h with
  | zero =>
    right
    simpa [MessageHistory.pruneLoop] using hfuel
  | succ n ih =>
    rw [MessageHistory.pruneLoop]
    split
    · rename_i hcond
      have := ih { h with messages := h.messages.tail }
        (by simp only [List.length_tail]; omega)
      simpa using this
    · rename_i hcond
      rw [not_and_or] at hcond
      rcases hcond with hc | hc
      · exact Or.inl (by omega)
      · exact Or.inr (by omega)

/-- Core post-condition of `prune`: on return, either the estimate fits the
budget or at most two messages remain. -/
theorem prune_post (h : MessageHistory) :
    (h.prune).estimateTokens ≤ h.max_tokens ∨ (h.prune).messages.length ≤ 2 :=
  pruneLoop_post h.messages.length h (by omega)

/-- C6 (counterexample): the claim "after prune(), estimated tokens ≤ budget
or fewer than 2 messages remain" fails on a two-message history over budget:
`prune` leaves both messages (the loop requires more than 2), the estimate
still exceeds the budget, and 2 messages — not fewer than 2 — remain. -/
theorem prune_budget_or_lt_two_fails :
    ¬ ((twoMsgOverBudget.prune).estimateTokens ≤ twoMsgOverBudget.max_tokens ∨
       (twoMsgOverBudget.prune).messages.length < 2) := by
  decide

/-- C6 (amended): after `prune()`, either the estimated token count is at most
the token budget, or fewer than 3 messages remain in the history. -/
theorem prune_budget_or_lt_three (h : MessageHistory) :
    (h.prune).estimateTokens ≤ h.max_tokens ∨ (h.prune).messages.length < 3 := by
  rcases prune_post h with h' | h'
  · exact Or.inl h'
  · exact Or.inr (by omega)

/-- C7: `prune` removes the oldest message while the estimated token count
exceeds the budget and at least 3 messages remain; consequently after
`prune()` either the estimate is within budget or fewer than 3 messages
remain. -/
theorem prune_invariant (h : MessageHistory) :
    (h.max_tokens < h.estimateTokens ∧ 2 < h.messages.length →
      h.prune = MessageHistory.prune { h with messages := h.messages.tail }) ∧
    ((h.prune).estimateTokens ≤ h.max_tokens ∨ (h.prune).messages.length < 3) := by
  constructor
  · intro hcond
    obtain ⟨k, hk⟩ : ∃ k, h.messages.length = k + 1 := ⟨h.messages.length - 1, by omega⟩
    rw [MessageHistory.prune, MessageHistory.prune, hk, MessageHistory.pruneLoop, if_pos hcond]
    congr 1
    simp only [List.length_tail]
    omega
  · rcases prune_post h with h' | h'
    · exact Or.inl h'
    · exact Or.inr (by omega)

/-- C7 witness: on a concrete over-budget three-message history the prune
loop fires (removing the oldest message) and the invariant holds. -/
theorem prune_invariant_witness :
    threeMsgOverBudget.prune =
      MessageHistory.prune { threeMsgOverBudget with messages := threeMsgOverBudget.messages.tail } ∧
    ((threeMsgOverBudget.prune).estimateTokens ≤ threeMsgOverBudget.max_tokens ∨
      (threeMsgOverBudget.prune).messages.length < 3) :=
  ⟨(prune_invariant threeMsgOverBudget).1 (by decide),
   (prune_invariant threeMsgOverBudget).2⟩

/-- C8: `add_tool_result` appends a tool-role message whose content is the
input truncated to 4000 characters: for inputs longer than 4000 characters
the stored content has length exactly 4000, and shorter inputs are stored
unchanged. -/
theorem add_tool_result_truncates (h : MessageHistory) (cid tname s : String) :
    (h.add_tool_result cid tname s).messages =
      h.messages ++ [{ role := "tool", content := .ofStr (pySlice s 4000),
                       tool_call_id := some cid, name := some tname }] ∧
    (4000 < s.length → (pySlice s 4000).length = 4000) ∧
    (s.length ≤ 4000 → pySlice s 4000 = s) := by
  refine ⟨rfl, ?_, ?_⟩
  · intro hlong
    show (String.mk (s.data.take 4000)).length = 4000
    have : (s.data.take 4000).length = min 4000 s.data.length := List.length_take ..
    have hlen : s.length = s.data.length := rfl
    simp only [String.length, this]
    omega
  · intro hshort
    show String.mk (s.data.take 4000) = s
    have hlen : s.length = s.data.length := rfl
    rw [List.take_of_length_le (by omega)]

/-- C8 witness: a concrete 4001-character tool result is stored with content
of length exactly 4000. -/
theorem add_tool_result_truncates_witness :
    4000 < (String.mk (List.replicate 4001 'x')).length ∧
    (pySlice (String.mk (List.replicate 4001 'x')) 4000).length = 4000 := by
  have hlen : (String.mk (List.replicate 4001 'x')).length = 4001 := by
    show (List.replicate 4001 'x').length = 4001
    rw [List.length_replicate]
  exact ⟨by omega, (add_tool_result_truncates { } "call_1" "nmap"
    (String.mk (List.replicate 4001 'x'))).2.1 (by omega)⟩

/-- C1 (counterexample): with a backend whose first stream yields zero text
chunks and zero tool calls, the run completes immediately at iteration 1 —
well below the default cap of 10 — with an empty final response.  The
iteration IS treated as done-with-empty-answer (`else: break` in agent.py
lines 171-174), contradicting the claim that such an iteration does not
complete the run. -/
theorem empty_stream_completes_run :
    (runAgent { } (fun _ => { items := [] }) (fun _ _ => .ok "") (fun _ => true) { } "hi").1 =
      [AgentEvent.agentDone "" 1] ∧
    (1 : Nat) < ({ } : AgentConfig).max_iterations := by
  decide

/-- C1 (amended): an iteration whose stream yields zero tool calls always
completes the run in that iteration — zero text included — with the
accumulated text (possibly empty) as final response and iteration count 1;
the assistant message is appended only when the accumulated text is
non-empty.  The "non-empty text + zero tool calls" condition is therefore
not the only completion signal. -/
theorem no_tool_calls_completes (cfg : AgentConfig) (backend : Nat → StreamResult)
    (executor : ToolExecutor) (confirms : ConfirmGate) (hist0 : MessageHistory)
    (u : String) (items : List StreamItem)
    (h0 : backend 0 = { items := items })
    (hnotools : streamToolCalls items = [])
    (hpos : 0 < cfg.max_iterations) :
    runAgent cfg backend executor confirms hist0 u =
      (textChunkEvents items ++ [AgentEvent.agentDone (accumulate items) 1],
       if accumulate items ≠ "" then
         ((hist0.add_user u).prune).add_assistant (accumulate items)
       else (hist0.add_user u).prune) := by
  obtain ⟨n, hn⟩ : ∃ n, cfg.max_iterations = n + 1 := ⟨cfg.max_iterations - 1, by omega⟩
  by_cases hacc : accumulate items = ""
  · simp [runAgent, hn, agentLoop, h0, hnotools, hacc]
  · simp [runAgent, hn, agentLoop, h0, hnotools, hacc]

/-- C1 amended, witnessed at the empty stream: the run completes at
iteration 1 with empty final response and no assistant message appended. -/
theorem no_tool_calls_completes_witness :
    runAgent { } (fun _ => { items := [] }) (fun _ _ => .ok "") (fun _ => true) { } "probe" =
      (textChunkEvents [] ++ [AgentEvent.agentDone (accumulate []) 1],
       if accumulate ([] : List StreamItem) ≠ "" then
         ((MessageHistory.add_user { } "probe").prune).add_assistant (accumulate [])
       else (MessageHistory.add_user { } "probe").prune) :=
  no_tool_calls_completes { } (fun _ => { items := [] }) (fun _ _ => .ok "")
    (fun _ => true) { } "probe" [] rfl rfl (by decide)

/-- C2: with a backend whose first stream yields the text chunk "Hello" and
zero tool calls, `run "hi"` yields exactly
`[TextChunk "Hello", AgentCompleted "Hello" 1]`, and the accumulated text
is appended to the history as an assistant message. -/
theorem hello_completion :
    runAgent { } (fun _ => { items := [StreamItem.text "Hello"] }) (fun _ _ => .ok "")
        (fun _ => true) { } "hi" =
      ([AgentEvent.textChunk "Hello", AgentEvent.agentDone "Hello" 1],
       { max_tokens := 8000, system_prompt := "",
         messages := [{ role := "user", content := .ofStr "hi" },
                      { role := "assistant", content := .ofStr "Hello" }] }) := by
  decide

/-- C3: under `require_confirm_dangerous`, a tool call whose name is in
`DANGEROUS_TOOLS` is gated: `ConfirmationRequired` is emitted after the
`ToolCallEvent` and before the `ToolCallResult`; when the gate resolves
with `confirmed = False`, the executor is never invoked for that call (the
invocation log is empty), the emitted result has `error = true` and output
exactly "User cancelled execution.", the matching tool result is recorded
in the history, and processing continues with the next tool call. -/
theorem dangerous_decline_gates (executor : ToolExecutor) (confirms : ConfirmGate)
    (hist : MessageHistory) (tc : ToolCall) (rest : List ToolCall)
    (hdanger : tc.name ∈ DANGEROUS_TOOLS) (hdecline : confirms tc.id = false) :
    processToolCall true executor confirms hist tc =
      ([AgentEvent.toolCall tc.name tc.arguments tc.id,
        AgentEvent.confirmationRequired tc.name (formatCmdPreview tc.name tc.arguments) tc.id,
        AgentEvent.toolResult tc.name tc.id "User cancelled execution." true],
       hist.add_tool_result tc.id tc.name "User cancelled execution.", []) ∧
    (processToolCalls true executor confirms hist (tc :: rest)).1 =
      (processToolCall true executor confirms hist tc).1 ++
        (processToolCalls true executor confirms
          (processToolCall true executor confirms hist tc).2.1 rest).1 := by
  refine ⟨?_, rfl⟩
  simp [processToolCall, hdanger, hdecline]

/-- C3 witnessed on a declined `ffuf` call followed by another call. -/
theorem dangerous_decline_gates_witness :
    processToolCall true (fun _ _ => Except.ok "fuzz output") (fun _ => false) { }
        { id := "c1", name := "ffuf", arguments := [("url", "http://t")] } =
      ([AgentEvent.toolCall "ffuf" [("url", "http://t")] "c1",
        AgentEvent.confirmationRequired "ffuf" (formatCmdPreview "ffuf" [("url", "http://t")]) "c1",
        AgentEvent.toolResult "ffuf" "c1" "User cancelled execution." true],
       MessageHistory.add_tool_result { } "c1" "ffuf" "User cancelled execution.", []) ∧
    (processToolCalls true (fun _ _ => Except.ok "fuzz output") (fun _ => false) { }
        [{ id := "c1", name := "ffuf", arguments := [("url", "http://t")] },
         { id := "c2", name := "nmap", arguments := [] }]).1 =
      (processToolCall true (fun _ _ => Except.ok "fuzz output") (fun _ => false) { }
        { id := "c1", name := "ffuf", arguments := [("url", "http://t")] }).1 ++
        (processToolCalls true (fun _ _ => Except.ok "fuzz output") (fun _ => false)
          (processToolCall true (fun _ _ => Except.ok "fuzz output") (fun _ => false) { }
            { id := "c1", name := "ffuf", arguments := [("url", "http://t")] }).2.1
          [{ id := "c2", name := "nmap", arguments := [] }]).1 :=
  dangerous_decline_gates (fun _ _ => Except.ok "fuzz output") (fun _ => false) { }
    { id := "c1", name := "ffuf", arguments := [("url", "http://t")] }
    [{ id := "c2", name := "nmap", arguments := [] }] (by decide) rfl

/-- Every event produced for one tool call is a `ToolCallEvent`,
`ConfirmationRequiredEvent` or `ToolResultEvent` — never a terminal event. -/
theorem processToolCall_no_terminal (rc : Bool) (executor : ToolExecutor)
    (confirms : ConfirmGate) (hist : MessageHistory) (tc : ToolCall) :
    ∀ ev ∈ (processToolCall rc executor confirms hist tc).1,
      isAgentError ev = false ∧ isAgentDone ev = false := by
  intro ev hev
  by_cases h1 : (rc = true ∧ tc.name ∈ DANGEROUS_TOOLS)
  · by_cases h2 : confirms tc.id = true
    · cases hx : executor tc.name tc.arguments with
      | error e =>
        simp [processToolCall, executeToolCall, h1, h2, hx] at hev
        rcases hev with rfl | rfl | rfl <;> exact ⟨rfl, rfl⟩
      | ok res =>
        simp [processToolCall, executeToolCall, h1, h2, hx] at hev
        rcases hev with rfl | rfl | rfl <;> exact ⟨rfl, rfl⟩
    · simp [processToolCall, h1, h2] at hev
      rcases hev with rfl | rfl | rfl <;> exact ⟨rfl, rfl⟩
  · cases hx : executor tc.name tc.arguments with
    | error e =>
      simp [processToolCall, executeToolCall, h1, hx] at hev
      rcases hev with rfl | rfl <;> exact ⟨rfl, rfl⟩
    | ok res =>
      simp [processToolCall, executeToolCall, h1, hx] at hev
      rcases hev with rfl | rfl <;> exact ⟨rfl, rfl⟩

/-- Act-phase events over a whole tool-call list contain no terminal event. -/
theorem processToolCalls_no_terminal (rc : Bool) (executor : ToolExecutor)
    (confirms : ConfirmGate) :
    ∀ (tcs : List ToolCall) (hist : MessageHistory),
      ∀ ev ∈ (processToolCalls rc executor confirms hist tcs).1,
        isAgentError ev = false ∧ isAgentDone ev = false := by
  intro tcs
  induction tcs with
  | nil =>
    intro hist ev hev
    simp [processToolCalls] at hev
  | cons tc rest ih =>
    intro hist ev hev
    simp only [processToolCalls, List.mem_append] at hev
    rcases hev with h | h
    · exact processToolCall_no_terminal rc executor confirms hist tc ev h
    · exact ih _ ev h

/-- Streamed text chunks are never terminal events. -/
theorem textChunkEvents_no_terminal (items : List StreamItem) :
    ∀ ev ∈ textChunkEvents items, isAgentError ev = false ∧ isAgentDone ev = false := by
  intro ev hev
  simp only [textChunkEvents, List.mem_map] at hev
  obtain ⟨s, _, rfl⟩ := hev
  exact ⟨rfl, rfl⟩

/-- If no `stream_chat` call raises, the loop never ends in `errored` and
its events contain no `AgentErrorEvent`. -/
theorem agentLoop_no_error (rc : Bool) (backend : Nat → StreamResult)
    (executor : ToolExecutor) (confirms : ConfirmGate)
    (hnoexc : ∀ i, (backend i).exc = none) :
    ∀ (r it : Nat) (f : String) (hist : MessageHistory),
      (agentLoop rc backend executor confirms r it f hist).isErrored = false ∧
      ∀ ev ∈ (agentLoop rc backend executor confirms r it f hist).events,
        isAgentError ev = false := by
  intro r
  induction r with
  | zero =>
    intro it f hist
    exact ⟨rfl, by simp [agentLoop, LoopOut.events]⟩
  | succ n ih =>
    intro it f hist
    have hexc := hnoexc it
    rcases hback : backend it with ⟨items, exc⟩
    rw [hback] at hexc
    simp only at hexc
    subst hexc
    simp only [agentLoop, hback]
    split_ifs with hc1 hc2
    · refine ⟨rfl, ?_⟩
      intro ev hev
      exact (textChunkEvents_no_terminal items ev hev).1
    · have ihr := ih (it + 1) f
        (processToolCalls rc executor confirms
          (hist.add_assistant (accumulate items)
            (some ((streamToolCalls items).map toolCallDictOf)))
          (streamToolCalls items)).2.1
      rcases hrec : agentLoop rc backend executor confirms n (it + 1) f
          (processToolCalls rc executor confirms
            (hist.add_assistant (accumulate items)
              (some ((streamToolCalls items).map toolCallDictOf)))
            (streamToolCalls items)).2.1 with
        ⟨evs, h', fin, m⟩ | ⟨evs, h', fin, m⟩ | ⟨evs, h', m⟩
      · rw [hrec] at ihr
        refine ⟨rfl, ?_⟩
        intro ev hev
        simp only [LoopOut.events, List.mem_append] at hev
        rcases hev with (h | h) | h
        · exact (textChunkEvents_no_terminal items ev h).1
        · exact (processToolCalls_no_terminal rc executor confirms _ _ ev h).1
        · exact ihr.2 ev h
      · rw [hrec] at ihr
        refine ⟨rfl, ?_⟩
        intro ev hev
        simp only [LoopOut.events, List.mem_append] at hev
        rcases hev with (h | h) | h
        · exact (textChunkEvents_no_terminal items ev h).1
        · exact (processToolCalls_no_terminal rc executor confirms _ _ ev h).1
        · exact ihr.2 ev h
      · rw [hrec] at ihr
        exact absurd ihr.1 (by simp [LoopOut.isErrored])
    · refine ⟨rfl, ?_⟩
      intro ev hev
      exact (textChunkEvents_no_terminal items ev hev).1

/-- If no `stream_chat` call raises, a run emits no `AgentErrorEvent` at
all — in particular executor exceptions never surface as one. -/
theorem runAgent_no_error (cfg : AgentConfig) (backend : Nat → StreamResult)
    (executor : ToolExecutor) (confirms : ConfirmGate) (hist0 : MessageHistory) (u : String)
    (hnoexc : ∀ i, (backend i).exc = none) :
    ∀ ev ∈ (runAgent cfg backend executor confirms hist0 u).1, isAgentError ev = false := by
  intro ev hev
  have h := agentLoop_no_error cfg.require_confirm backend executor confirms hnoexc
    cfg.max_iterations 0 "" ((hist0.add_user u).prune)
  simp only [runAgent] at hev
  rcases hrec : agentLoop cfg.require_confirm backend executor confirms
      cfg.max_iterations 0 "" ((hist0.add_user u).prune) with
    ⟨evs, h', fin, m⟩ | ⟨evs, h', fin, m⟩ | ⟨evs, h', m⟩
  · rw [hrec] at h
    simp only [hrec, List.mem_append, List.mem_singleton] at hev
    rcases hev with hm | rfl
    · exact h.2 ev (by simpa [LoopOut.events] using hm)
    · rfl
  · rw [hrec] at h
    simp only [hrec, List.mem_append, List.mem_cons, List.mem_singleton] at hev
    rcases hev with hm | rfl | (rfl | hfalse)
    · exact h.2 ev (by simpa [LoopOut.events] using hm)
    · rfl
    · rfl
    · exact absurd hfalse (List.not_mem_nil ev)
  · rw [hrec] at h
    exact absurd h.1 (by simp [LoopOut.isErrored])

/-- C4: when the executor raises for a tool call that reaches execution,
the exception is caught locally: the events for the call end with a
`ToolCallResult` tagged `error = true` carrying the failure message
("Tool error: ..."), the matching result is appended to the history, the
call produces no terminal event, processing continues with the next tool
call, and — whenever no `stream_chat` call raises — the whole run emits no
`AgentErrorEvent` at all. -/
theorem executor_exception_recovered (rc : Bool) (executor : ToolExecutor)
    (confirms : ConfirmGate) (hist : MessageHistory) (tc : ToolCall) (rest : List ToolCall)
    (e : String)
    (hexec : executor tc.name tc.arguments = .error e)
    (hreach : rc = true ∧ tc.name ∈ DANGEROUS_TOOLS → confirms tc.id = true) :
    processToolCall rc executor confirms hist tc =
      ((if rc = true ∧ tc.name ∈ DANGEROUS_TOOLS then
          [AgentEvent.toolCall tc.name tc.arguments tc.id,
           AgentEvent.confirmationRequired tc.name (formatCmdPreview tc.name tc.arguments) tc.id]
        else [AgentEvent.toolCall tc.name tc.arguments tc.id]) ++
        [AgentEvent.toolResult tc.name tc.id ("Tool error: " ++ e) true],
       hist.add_tool_result tc.id tc.name ("Tool error: " ++ e), [(tc.name, tc.arguments)]) ∧
    (∀ ev ∈ (processToolCall rc executor confirms hist tc).1,
       isAgentError ev = false ∧ isAgentDone ev = false) ∧
    (processToolCalls rc executor confirms hist (tc :: rest)).1 =
      (processToolCall rc executor confirms hist tc).1 ++
        (processToolCalls rc executor confirms
          (processToolCall rc executor confirms hist tc).2.1 rest).1 ∧
    (∀ (cfg : AgentConfig) (backend : Nat → StreamResult) (hist0 : MessageHistory) (u : String),
       (∀ i, (backend i).exc = none) →
       ∀ ev ∈ (runAgent cfg backend executor confirms hist0 u).1, isAgentError ev = false) := by
  refine ⟨?_, processToolCall_no_terminal rc executor confirms hist tc, rfl,
    fun cfg backend hist0 u hnoexc =>
      runAgent_no_error cfg backend executor confirms hist0 u hnoexc⟩
  by_cases h1 : rc = true ∧ tc.name ∈ DANGEROUS_TOOLS
  · simp [processToolCall, executeToolCall, h1, hreach h1, hexec]
  · simp [processToolCall, executeToolCall, h1, hexec]

/-- C4 witnessed: a raising executor on a non-dangerous `nmap` call yields
the error-tagged result and records it, without terminating anything. -/
theorem executor_exception_recovered_witness :
    processToolCall true (fun _ _ => Except.error "boom") (fun _ => true) { }
        { id := "c9", name := "nmap", arguments := [("target", "10.0.0.1")] } =
      ([AgentEvent.toolCall "nmap" [("target", "10.0.0.1")] "c9",
        AgentEvent.toolResult "nmap" "c9" "Tool error: boom" true],
       MessageHistory.add_tool_result { } "c9" "nmap" "Tool error: boom",
       [("nmap", [("target", "10.0.0.1")])]) := by
  have h := (executor_exception_recovered true (fun _ _ => Except.error "boom") (fun _ => true)
    { } { id := "c9", name := "nmap", arguments := [("target", "10.0.0.1")] } [] "boom" rfl
    (by decide)).1
  rw [if_neg (by decide)] at h
  exact h

/-- When every iteration in range yields at least one tool call and no
stream raises, the loop consumes all its fuel and exhausts, leaving the
final-response buffer untouched. -/
theorem agentLoop_all_tools_exhausts (rc : Bool) (backend : Nat → StreamResult)
    (executor : ToolExecutor) (confirms : ConfirmGate) :
    ∀ (r it : Nat) (f : String) (hist : MessageHistory),
      (∀ i, it ≤ i → i < it + r →
        (backend i).exc = none ∧ streamToolCalls (backend i).items ≠ []) →
      ∃ evs h', agentLoop rc backend executor confirms r it f hist =
        .exhausted evs h' f (it + r) := by
  intro r
  induction r with
  | zero =>
    intro it f hist _
    exact ⟨[], hist, by simp [agentLoop]⟩
  | succ n ih =>
    intro it f hist hall
    have hit := hall it (le_refl it) (by omega)
    rcases hback : backend it with ⟨items, exc⟩
    rw [hback] at hit
    simp only at hit
    obtain ⟨hexc, htools⟩ := hit
    subst hexc
    obtain ⟨evs, h', hrec⟩ := ih (it + 1) f
      (processToolCalls rc executor confirms
        (hist.add_assistant (accumulate items)
          (some ((streamToolCalls items).map toolCallDictOf)))
        (streamToolCalls items)).2.1
      (fun i hi1 hi2 => hall i (by omega) (by omega))
    refine ⟨textChunkEvents items ++
      (processToolCalls rc executor confirms
        (hist.add_assistant (accumulate items)
          (some ((streamToolCalls items).map toolCallDictOf)))
        (streamToolCalls items)).1 ++ evs, h', ?_⟩
    simp only [agentLoop, hback, htools, ne_eq, not_false_iff, false_and, if_false,
      if_true, hrec, List.append_assoc]
    congr 1
    omega

/-- C5: with `max_iterations = N` and a backend that yields at least one
tool call on every iteration (never a bare final answer, never raising),
the run terminates after exactly N iterations: it emits the iteration-cap
note as a `TextChunk`, then `AgentCompleted` — not `AgentFailed` — whose
final response is exactly that note (which names the cap) and whose
iteration count is N. -/
theorem iteration_cap_reached (N : Nat) (rc : Bool) (backend : Nat → StreamResult)
    (executor : ToolExecutor) (confirms : ConfirmGate) (hist0 : MessageHistory) (u : String)
    (halltools : ∀ i, i < N →
      (backend i).exc = none ∧ streamToolCalls (backend i).items ≠ []) :
    ∃ evs h',
      runAgent { max_iterations := N, require_confirm := rc } backend executor confirms
          hist0 u =
        (evs ++ [AgentEvent.textChunk (maxIterMsg N),
                 AgentEvent.agentDone (maxIterMsg N) N], h') ∧
      maxIterMsg N = "\n\n*[Agent reached max iterations (" ++ toString N ++ ")]*" := by
  obtain ⟨evs, h', hrec⟩ := agentLoop_all_tools_exhausts rc backend executor confirms N 0 ""
    ((hist0.add_user u).prune) (fun i h1 h2 => halltools i (by omega))
  rw [show (0 + N) = N from by omega] at hrec
  refine ⟨evs, h', ?_, rfl⟩
  simp only [runAgent, hrec]
  rfl

/-- C5 witnessed: `max_iterations = 2` and a backend that always streams
one `nmap` tool call. -/
theorem iteration_cap_reached_witness :
    ∃ evs h',
      runAgent { max_iterations := 2, require_confirm := true }
          (fun _ => { items := [StreamItem.tool
            { id := "c1", name := "nmap", arguments := [("target", "10.0.0.1")] }] })
          (fun _ _ => Except.ok "scan done") (fun _ => true) { } "go" =
        (evs ++ [AgentEvent.textChunk (maxIterMsg 2),
                 AgentEvent.agentDone (maxIterMsg 2) 2], h') ∧
      maxIterMsg 2 = "\n\n*[Agent reached max iterations (" ++ toString 2 ++ ")]*" :=
  iteration_cap_reached 2 true
    (fun _ => { items := [StreamItem.tool
      { id := "c1", name := "nmap", arguments := [("target", "10.0.0.1")] }] })
    (fun _ _ => Except.ok "scan done") (fun _ => true) { } "go"
    (by decide)

/-- The Groq stream loop never yields a tool call, whatever the provider
streams. -/
theorem groqStreamChat_no_tool (lines : List SSELine) :
    ∀ tc, StreamItem.tool tc ∉ groqStreamChat lines := by
  induction lines with
  | nil =>
    intro tc h
    simp [groqStreamChat] at h
  | cons line rest ih =>
    intro tc h
    match line with
    | .notData raw => exact ih tc (by simpa [groqStreamChat] using h)
    | .data .done => simp [groqStreamChat] at h
    | .data .malformed => exact ih tc (by simpa [groqStreamChat] using h)
    | .data (.frame content tcs) =>
      simp only [groqStreamChat, List.mem_append] at h
      rcases h with h | h
      · split at h <;> simp at h
      · exact ih tc h

/-- The OpenAI-compatible stream loop never yields a tool call either. -/
theorem openaiCompatStreamChat_no_tool (lines : List SSELine) :
    ∀ tc, StreamItem.tool tc ∉ openaiCompatStreamChat lines := by
  induction lines with
  | nil =>
    intro tc h
    simp [openaiCompatStreamChat] at h
  | cons line rest ih =>
    intro tc h
    match line with
    | .notData raw => exact ih tc (by simpa [openaiCompatStreamChat] using h)
    | .data .done => simp [openaiCompatStreamChat] at h
    | .data .malformed => exact ih tc (by simpa [openaiCompatStreamChat] using h)
    | .data (.frame content tcs) =>
      simp only [openaiCompatStreamChat, List.mem_append] at h
      rcases h with h | h
      · split at h <;> simp at h
      · exact ih tc h

/-- C9: contrary to the backend ordering guarantee, the Groq and generic
OpenAI-compatible `stream_chat` loops never emit any tool call.  On a
stream whose single frame carries one tool-call delta, both yield nothing
at all (the delta's `tool_calls` field is dropped), and in general no
`ToolCall` item ever appears in their output. -/
theorem stream_chat_drops_tool_calls :
    groqStreamChat streamWithToolCallDelta = [] ∧
    openaiCompatStreamChat streamWithToolCallDelta = [] ∧
    sseFrameToolCalls streamWithToolCallDelta =
      [{ id := "call_1", name := "nmap",
         argumentsJson := "\x7b\"target\": \"10.0.0.1\"\x7d" }] ∧
    (∀ (lines : List SSELine) (tc : ToolCall), StreamItem.tool tc ∉ groqStreamChat lines) ∧
    (∀ (lines : List SSELine) (tc : ToolCall),
      StreamItem.tool tc ∉ openaiCompatStreamChat lines) :=
  ⟨by decide, by decide, by decide,
   fun lines tc => groqStreamChat_no_tool lines tc,
   fun lines tc => openaiCompatStreamChat_no_tool lines tc⟩

/-- C10 (counterexample): an available tool that reports failure but with
non-empty output: `execute_from_ai` returns the raw output with no
"[Error] " marker, although the execution failed. -/
theorem failing_output_unprefixed :
    (failingOutputReg.execute "vuln_scan" []).success = false ∧
    failingOutputReg.execute_from_ai "vuln_scan" [] = "partial results" ∧
    ("[Error] ".data.isPrefixOf (failingOutputReg.execute_from_ai "vuln_scan" []).data)
      = false := by
  decide

/-- C10 (amended): `execute_from_ai` is total (the embedding never raises)
and returns the "[Error] "-prefixed error exactly for failing executions
whose result carries no output — which covers unknown tools, unavailable
tools, and tools whose execution raised; a failure whose result carries
non-empty output is returned as that output, unprefixed. -/
theorem execute_from_ai_error_marker (reg : ToolRegistry) (name : String)
    (args : List (String × String)) :
    ((reg.execute name args).success = false → (reg.execute name args).output = "" →
      reg.execute_from_ai name args = "[Error] " ++ (reg.execute name args).error) ∧
    ((reg.execute name args).success = false → (reg.execute name args).output ≠ "" →
      reg.execute_from_ai name args = (reg.execute name args).output) ∧
    (reg.getTool name = none →
      reg.execute name args =
        { success := false, output := "", error := "Unknown tool: " ++ name }) ∧
    (∀ tool, reg.getTool name = some tool → reg.is_available name = false →
      reg.execute name args =
        { success := false, output := "",
          error := "Tool '" ++ name ++ "' not available. " ++ reg.get_hint name }) ∧
    (∀ tool e, reg.getTool name = some tool → reg.is_available name = true →
      tool.behavior args = .raises e →
      reg.execute name args = { success := false, output := "", error := e }) := by
  refine ⟨?_, ?_, ?_, ?_, ?_⟩
  · intro hs ho
    simp [ToolRegistry.execute_from_ai, hs, ho]
  · intro hs ho
    simp [ToolRegistry.execute_from_ai, hs, ho]
  · intro hn
    simp [ToolRegistry.execute, hn]
  · intro tool ht hav
    simp [ToolRegistry.execute, ht, hav]
  · intro tool e ht hav hb
    simp [ToolRegistry.execute, ht, hav, hb]

/-- C10 amended, witnessed: an unknown tool gets the "[Error] " marker; the
available-but-failing tool with output does not. -/
theorem execute_from_ai_error_marker_witness :
    failingOutputReg.execute_from_ai "sqlmap" [] = "[Error] Unknown tool: sqlmap" ∧
    failingOutputReg.execute_from_ai "vuln_scan" [] = "partial results" := by
  constructor
  · exact (execute_from_ai_error_marker failingOutputReg "sqlmap" []).1 (by decide) (by decide)
  · exact (execute_from_ai_error_marker failingOutputReg "vuln_scan" []).2.1 (by decide) (by decide)

end RedTeamAI
